import Mathlib

/-!
Verification of the similarity-evaluation engine of the brain-score / mkgu
repository (`mkgu/metrics/__init__.py` and
`brainscore/benchmarks/rajalingham2018.py`).

The labeled-tensor operations are shallowly embedded: an assembly axis is a
list of entries, each entry carrying a payload and a label for every
coordinate level; fallible operations (Python `assert` statements) return
`Except MetricError`.
-/

/-- Error taxonomy of the engine.  Python raises `AssertionError` everywhere;
the specification names the assertion at the end of `subset`
`AlignmentError`, the shape assertion in `apply`
`InconsistentOutputShapeError`, the two assertions at the top of
`cross_apply` `MisalignedFoldInputError`, and the split-set assertion in
`ceil_score` `SplitMismatchError`.  Remaining unnamed assertions are
modelled as `assertionFailed`. -/
inductive MetricError where
  | alignmentError
  | inconsistentOutputShape
  | misalignedFoldInput
  | splitMismatch
  | assertionFailed
  deriving DecidableEq, Repr

/-- One entry (position) along the subsetted axis of a labeled tensor: a
payload (standing for the data row at that position) and, for every
coordinate level name, the label of this entry on that level. -/
structure Entry where
  payload : Int
  labels : String → Int

/-- The subsetted axis of a labeled tensor (`mkgu.assemblies` view used by
`subset`): `level_names` is `assembly[dim].variable.level_names` (empty when
the axis has no multi-index), `coords` is the set of coordinate names for
which `hasattr(assembly, level)` holds, and `entries` are the positions
along the axis. -/
structure Assembly where
  level_names : List String
  coords : List String
  entries : List Entry

/-- `assembly[level].values`: the label values of all entries on `level`. -/
def levelValues (a : Assembly) (level : String) : List Int :=
  a.entries.map (fun e => e.labels level)

/-- `target_assembly[dim].variable.level_names or [dim]` in `subset`. -/
def effectiveLevels (target : Assembly) (dim : String) : List String :=
  if target.level_names.isEmpty then [dim] else target.level_names

/-- The selection loop of `subset`: for each level of the target axis, if the
source has that coordinate, keep only those entries whose label on that level
appears among the target's label values for that level
(`indexer = np.array([val in level_values for val in source[level].values])`
followed by `isel`). -/
def subsetFilter (source target : Assembly) (dim : String) : List Entry :=
  (effectiveLevels target dim).foldl
    (fun acc level =>
      if level ∈ source.coords then
        acc.filter (fun e => (levelValues target level).contains (e.labels level))
      else acc)
    source.entries

/-- The per-entry membership predicate of the specification: an entry is kept
iff, for every level of the axis present in both tensors, its label on that
level appears among the target's label values for that level (per-level
membership masks intersected across levels). -/
def keepEntry (source target : Assembly) (dim : String) (e : Entry) : Bool :=
  (effectiveLevels target dim).all
    (fun level =>
      !(decide (level ∈ source.coords)) ||
        (levelValues target level).contains (e.labels level))

/-- `mkgu.metrics.subset` restricted to a single subsetted axis (as used by
`Similarity.align` with `subset_dims=['presentation']`): assert that at least
one target level is an attribute of the source, run the selection loop, then
assert that the filtered source axis has the target's axis length
(`AlignmentError` otherwise). -/
def subset (source target : Assembly) (dim : String) : Except MetricError Assembly :=
  let levels := effectiveLevels target dim
  if levels.any (fun level => decide (level ∈ source.coords)) then
    let filtered := subsetFilter source target dim
    if filtered.length = target.entries.length then
      .ok { source with entries := filtered }
    else
      .error .alignmentError
  else
    .error .assertionFailed

/-- Concrete source axis used for the claim-C1 counterexample: one entry with
`image_id = 0`. -/
def srcC1 : Assembly :=
  { level_names := ["image_id"], coords := ["image_id"],
    entries := [{ payload := 0, labels := fun _ => 0 }] }

/-- Concrete target axis used for the claim-C1 counterexample: two entries
with `image_id = 0` and `image_id = 1`. -/
def tgtC1 : Assembly :=
  { level_names := ["image_id"], coords := ["image_id"],
    entries := [{ payload := 0, labels := fun _ => 0 },
                { payload := 1, labels := fun _ => 1 }] }

/-- Concrete assembly on which `subset` succeeds (source and target
coincide), used for witnesses. -/
def asmOk : Assembly :=
  { level_names := ["image_id"], coords := ["image_id"],
    entries := [{ payload := 3, labels := fun _ => 7 }] }

/-- Concrete source axis used for the claim-C8 witness: entries labelled 0
and 5, of which only 0 survives against `tgtC1`. -/
def srcC8 : Assembly :=
  { level_names := ["image_id"], coords := ["image_id"],
    entries := [{ payload := 0, labels := fun _ => 0 },
                { payload := 5, labels := fun _ => 5 }] }

/-- `values.mean(dim)` across the split axis (`MeanScore.get_center`). -/
noncomputable def listMean (xs : List ℝ) : ℝ := xs.sum / xs.length

/-- `values.std(dim)` across the split axis (`Score.get_error`): numpy's
population standard deviation, the square root of the mean squared deviation
from the mean. -/
noncomputable def listStd (xs : List ℝ) : ℝ :=
  Real.sqrt (listMean (xs.map (fun x => (x - listMean xs) ^ 2)))

/-- `mkgu.metrics.Score` specialised by `MeanScore`: the per-split values
together with the derived `center` and `error` statistics. -/
structure MeanScore where
  values : List ℝ
  center : ℝ
  error : ℝ

/-- `Score.__init__` with `MeanScore.get_center` and `Score.get_error`:
store the per-split tensor, derive `center` as the mean across the split
axis and `error` as the standard deviation across the split axis. -/
noncomputable def MeanScore.ofValues (values : List ℝ) : MeanScore :=
  { values := values, center := listMean values, error := listStd values }

/-- The order on entries used by `Similarity.sort`
(`assembly.sortby('image_id')`). -/
def imageIdLE (a b : Entry) : Prop :=
  a.labels "image_id" ≤ b.labels "image_id"

instance : DecidableRel imageIdLE :=
  fun a b => inferInstanceAs (Decidable (a.labels "image_id" ≤ b.labels "image_id"))

instance : IsTotal Entry imageIdLE :=
  ⟨fun a b => le_total (a.labels "image_id") (b.labels "image_id")⟩

instance : IsTrans Entry imageIdLE :=
  ⟨fun _ _ _ h1 h2 => le_trans h1 h2⟩

/-- `Similarity.sort`: reorder the entries of the axis by their `image_id`
label. -/
def Similarity.sort (a : Assembly) : Assembly :=
  { a with entries := List.insertionSort imageIdLE a.entries }

/-- `Similarity.__call__`: align the source to the target on the
`presentation` axis, sort both tensors by their `image_id` identity
coordinate, run the concrete per-split similarity (`self.apply`, abstract in
the source and therefore a parameter here) and wrap the per-split result in
a `MeanScore` (`self.score`). -/
noncomputable def Similarity.call (applyFn : Assembly → Assembly → List ℝ)
    (source_assembly target_assembly : Assembly) : Except MetricError MeanScore :=
  match subset source_assembly target_assembly "presentation" with
  | .error e => .error e
  | .ok aligned =>
      .ok (MeanScore.ofValues
        (applyFn (Similarity.sort aligned) (Similarity.sort target_assembly)))

/-- A multi-dimensional assembly as seen by
`OuterCrossValidationSimilarity.apply`: its dimension names and, for every
dimension, the coordinate values along it. -/
structure MultiAssembly where
  dims : List String
  coords : String → List Int

/-- `adjacent_dims` in `adjacent_selections`: the dimensions of the assembly
not participating in the similarity computation. -/
def adjacentDims (a : MultiAssembly) (similarity_dims : List String) : List String :=
  a.dims.filter (fun d => !similarity_dims.contains d)

/-- `np.unique(assembly[dim])`, tagged with the dimension name: the distinct
choices along one adjacent dimension. -/
def dimChoices (a : MultiAssembly) (d : String) : List (String × Int) :=
  ((a.coords d).dedup).map (fun v => (d, v))

/-- `adjacent_selections`: all distinct combinations of coordinate values
along the adjacent dimensions (`itertools.product(*choices.values())`, one
choice per adjacent dimension), each combination given as its list of
(dimension, value) assignments. -/
def adjacent_selections (a : MultiAssembly) (similarity_dims : List String) :
    List (List (String × Int)) :=
  ((adjacentDims a similarity_dims).map (dimChoices a)).sections

/-- The list comprehension of `apply`: invoke the cross-validation engine
(`self.cross_apply(source_assembly.sel(**adj1), target_assembly.sel(**adj2))`,
abstracted as `crossApplyFn` over the two adjacent selections) once for
every pair in the Cartesian product of the two enumerations, keeping each
per-split result keyed by its (source-adjacent, target-adjacent) pair. -/
def outerCalls (crossApplyFn : List (String × Int) → List (String × Int) → List ℚ)
    (similarity_dims : List String) (source target : MultiAssembly) :
    List ((List (String × Int)) × (List (String × Int)) × List ℚ) :=
  ((adjacent_selections source similarity_dims) ×ˢ
      (adjacent_selections target similarity_dims)).map
    (fun p => (p.1, p.2, crossApplyFn p.1 p.2))

/-- `OuterCrossValidationSimilarity.apply`: enumerate adjacent combinations
independently for source and target, run the engine on every pair of the
Cartesian product, assert all results have equal shape
(`InconsistentOutputShapeError` otherwise), and merge the expanded results
into one tensor keyed by the adjacent selections. -/
def OuterCrossValidationSimilarity.apply
    (crossApplyFn : List (String × Int) → List (String × Int) → List ℚ)
    (similarity_dims : List String) (source target : MultiAssembly) :
    Except MetricError
      (List ((List (String × Int)) × (List (String × Int)) × List ℚ)) :=
  let similarities := outerCalls crossApplyFn similarity_dims source target
  if (similarities.drop 1).all
      (fun s => s.2.2.length
        = ((similarities.head?.map (fun s0 => s0.2.2.length)).getD 0)) then
    .ok similarities
  else
    .error .inconsistentOutputShape

/-- Cross-validation engine used in the claim-C3 witness: a constant
single-split result. -/
def crossApplyC3 : List (String × Int) → List (String × Int) → List ℚ :=
  fun _ _ => [0]

/-- Source tensor of the claim-C3 witness: a `time` dimension with two
values adjacent to the similarity dimensions. -/
def srcC3 : MultiAssembly :=
  { dims := ["time", "presentation", "neuroid"],
    coords := fun d => if d = "time" then [0, 1] else [0] }

/-- Target tensor of the claim-C3 witness: no adjacent dimensions. -/
def tgtC3 : MultiAssembly :=
  { dims := ["presentation", "neuroid"], coords := fun _ => [0] }

/-- The merged result tensor of the claim-C3 witness, written out. -/
def mergedC3 : List ((List (String × Int)) × (List (String × Int)) × List ℚ) :=
  [([("time", 0)], [], [0]), ([("time", 1)], [], [0])]

/-- `OuterCrossValidationSimilarity.cross_apply`: before generating any
folds, assert that the source and target slices agree entry-for-entry on
the comparison axis's identity coordinate and on the stratification
coordinate (`MisalignedFoldInputError` otherwise).  The stratified split
loop itself (the `StratifiedShuffleSplit` body, stochastic in the source)
is abstracted as `splitFn`, so the assertions demonstrably run before it. -/
def OuterCrossValidationSimilarity.cross_apply (splitFn : Assembly → Assembly → List (Nat × ℚ))
    (cross_validation_dim stratification_coord : String)
    (source target : Assembly) : Except MetricError (List (Nat × ℚ)) :=
  if levelValues source cross_validation_dim
      = levelValues target cross_validation_dim then
    if levelValues source stratification_coord
        = levelValues target stratification_coord then
      .ok (splitFn source target)
    else .error .misalignedFoldInput
  else .error .misalignedFoldInput

/-- A two-dimensional (presentation × neuroid) assembly as exchanged by
`fit`, `predict` and `compare_prediction`: the `image_id` coordinate along
the presentation axis, the `neuroid_id` coordinate along the neuroid axis,
and one row of per-presentation values for every neuroid. -/
structure NAssembly where
  image_id : List Int
  neuroid_id : List Int
  values : List (List ℚ)

/-- The mutable instance state of a `ParametricCVSimilarity`: the
`_target_neuroid_ids` recorded by the most recent `fit` call (initially
`None`). -/
structure PState where
  target_neuroid_ids : Option (List Int)

/-- `ParametricCVSimilarity.fit`: assert that training source and target
agree pairwise on `image_id` (the zip-based assertion of the source), then
record the training target's `neuroid_id` values on the instance,
overwriting whatever an earlier `fit` recorded, and defer to the subclass
`fit_values` (which touches none of the state modelled here). -/
def ParametricCVSimilarity.fit (_st : PState) (train_source train_target : NAssembly) :
    Except MetricError PState :=
  if (train_source.image_id.zip train_target.image_id).all
      (fun p => p.1 == p.2) then
    .ok { target_neuroid_ids := some train_target.neuroid_id }
  else
    .error .assertionFailed

/-- `ParametricCVSimilarity.predict`: apply the learned mapping
(`predict_values`, subclass-specific and abstracted here) to the test
source and re-attach, in place of the test source's own `neuroid_id`
values, the ones recorded by the most recent `fit` (`modify_coord`); with
no preceding `fit` the recorded state is `None` and prediction aborts. -/
def ParametricCVSimilarity.predict (predict_values : NAssembly → List (List ℚ))
    (st : PState) (test_source : NAssembly) : Except MetricError NAssembly :=
  match st.target_neuroid_ids with
  | none => .error .assertionFailed
  | some ids =>
      .ok { image_id := test_source.image_id, neuroid_id := ids,
            values := predict_values test_source }

/-- `assembly.sel(**{'neuroid_id': i})` for the neuroid axis: the rows whose
`neuroid_id` label equals `i`. -/
def selNeuroid (a : NAssembly) (i : Int) : List (List ℚ) :=
  ((a.neuroid_id.zip a.values).filter (fun p => p.1 == i)).map (fun p => p.2)

/-- `np.median`: sort, then take the middle element (odd length) or the
mean of the two middle elements (even length). -/
def np_median (xs : List ℚ) : ℚ :=
  let sorted := List.insertionSort (· ≤ ·) xs
  let n := sorted.length
  if n % 2 = 1 then sorted.getD (n / 2) 0
  else (sorted.getD (n / 2 - 1) 0 + sorted.getD (n / 2) 0) / 2

/-- The per-neuroid comparison step of `compare_prediction`: the target and
prediction slices for one `neuroid_id` value are selected, squeezed and
correlated (`scipy.stats.pearsonr`, abstracted as `correlation`); unless
each slice squeezes to exactly one row, the correlation call fails. -/
def entityScore (correlation : List ℚ → List ℚ → ℚ) (prediction target : NAssembly)
    (i : Int) : Except MetricError ℚ :=
  if (selNeuroid target i).length = 1 ∧ (selNeuroid prediction i).length = 1 then
    .ok (correlation ((selNeuroid target i).headD [])
      ((selNeuroid prediction i).headD []))
  else .error .assertionFailed

/-- The `for i in target[axis].values` loop of `compare_prediction`,
collecting one correlation per entity and aborting at the first failing
slice. -/
def collectScores (correlation : List ℚ → List ℚ → ℚ)
    (prediction target : NAssembly) : List Int → Except MetricError (List ℚ)
  | [] => .ok []
  | i :: rest =>
      match entityScore correlation prediction target i,
            collectScores correlation prediction target rest with
      | .ok r, .ok rs => .ok (r :: rs)
      | .error e, _ => .error e
      | _, .error e => .error e

/-- `ParametricCVSimilarity.compare_prediction`: assert pairwise agreement
of prediction and target on `image_id` and on `neuroid_id` (fatal
otherwise), compute one correlation per entity (one per `neuroid_id`
value), and return the median across neuroids. -/
def ParametricCVSimilarity.compare_prediction
    (correlation : List ℚ → List ℚ → ℚ) (prediction target : NAssembly) :
    Except MetricError ℚ :=
  if (prediction.image_id.zip target.image_id).all (fun p => p.1 == p.2) then
    if (prediction.neuroid_id.zip target.neuroid_id).all (fun p => p.1 == p.2) then
      match collectScores correlation prediction target target.neuroid_id with
      | .ok rs => .ok (np_median rs)
      | .error e => .error e
    else .error .assertionFailed
  else .error .assertionFailed

/-- A brainscore `Score` as consumed by `ceil_score`: its raw per-split
values (`score.raw`), keyed by split identifier.  Modelled from the spec:
the `Score` data model of `brainscore.metrics` is not among the given
sources; per the specification a score carries a per-split tensor along a
distinguished split axis. -/
structure BehavioralScore where
  raw : List (Int × ℝ)

/-- The result of `ceil_score`: the aggregated center, the merged ceiled
per-split values, and the two auxiliary provenance attributes
(`attrs[Score.RAW_VALUES_KEY]`, the pre-ceiling score, and
`attrs['ceiling']`, the ceiling tensor). -/
structure CeiledScore where
  center : ℝ
  raw_per_split : List (Int × ℝ)
  raw : BehavioralScore
  ceiling : BehavioralScore

/-- `DicarloRajalingham2018I2n.ceil_score`: assert that score and ceiling
carry the same set of split identifiers (`SplitMismatchError` otherwise);
for each split of the ceiling, divide that split's raw score by the square
root of that same split's ceiling value (`.sel(split=split)` modelled as
association-list lookup); merge the per-split singletons (`Score.merge`,
modelled from the spec as collecting them into one per-split tensor),
re-aggregate with the metric's aggregation
(`apply_aggregate(self._metric.aggregate, ...)`, both modelled from the
spec and abstracted as `aggregate`), and attach the pre-ceiling score and
the ceiling as auxiliary attributes. -/
noncomputable def ceil_score (aggregate : List (Int × ℝ) → ℝ)
    (score ceiling : BehavioralScore) : Except MetricError CeiledScore :=
  if (score.raw.map Prod.fst).toFinset = (ceiling.raw.map Prod.fst).toFinset then
    let ceiled := (ceiling.raw.map Prod.fst).map (fun split =>
      (split, ((score.raw.lookup split).getD 0)
        / Real.sqrt ((ceiling.raw.lookup split).getD 0)))
    .ok { center := aggregate ceiled, raw_per_split := ceiled,
          raw := score, ceiling := ceiling }
  else
    .error .splitMismatch

/-- Correlation statistic used by the claim-C4 witness. -/
def corrC4 : List ℚ → List ℚ → ℚ := fun _ _ => 1

/-- Prediction of the claim-C4 mismatch witness (`image_id = [1]`). -/
def predMismatchC4 : NAssembly :=
  { image_id := [1], neuroid_id := [0], values := [[0]] }

/-- Target of the claim-C4 mismatch witness (`image_id = [2]`). -/
def tgtMismatchC4 : NAssembly :=
  { image_id := [2], neuroid_id := [0], values := [[0]] }

/-- Prediction and target of the claim-C4 success witness: two
presentations, one neuroid. -/
def predOkC4 : NAssembly :=
  { image_id := [0, 1], neuroid_id := [7], values := [[1, 2]] }

/-- Identity-like predictor used by the claim-C9 witness. -/
def pvC9 : NAssembly → List (List ℚ) := fun a => a.values

/-- Training source of the first fit in the claim-C9 witness. -/
def fitSrc1C9 : NAssembly := { image_id := [0], neuroid_id := [1], values := [[0]] }

/-- Training target of the first fit in the claim-C9 witness
(`neuroid_id = [1]`). -/
def fitTgt1C9 : NAssembly := { image_id := [0], neuroid_id := [1], values := [[0]] }

/-- Training source of the second fit in the claim-C9 witness. -/
def fitSrc2C9 : NAssembly := { image_id := [0], neuroid_id := [9], values := [[0]] }

/-- Training target of the second fit in the claim-C9 witness
(`neuroid_id = [2]`). -/
def fitTgt2C9 : NAssembly := { image_id := [0], neuroid_id := [2], values := [[0]] }

/-- Test source of the claim-C9 witness, with its own `neuroid_id = [5]`
differing from every training target. -/
def testC9 : NAssembly := { image_id := [0], neuroid_id := [5], values := [[0]] }

/-- The prediction produced in the claim-C9 witness: it carries
`neuroid_id = [2]`, the value recorded by the second fit. -/
def predC9 : NAssembly := { image_id := [0], neuroid_id := [2], values := [[0]] }

/-- Fresh instance state for the claim-C9 witness. -/
def stNoneC9 : PState := { target_neuroid_ids := none }

/-- Instance state after the first fit of the claim-C9 witness. -/
def stAC9 : PState := { target_neuroid_ids := some [1] }

/-- Instance state after the second fit of the claim-C9 witness. -/
def stBC9 : PState := { target_neuroid_ids := some [2] }

/-- Aggregation used by the claim-C2 witness: sum of the per-split values. -/
noncomputable def aggC2 : List (Int × ℝ) → ℝ := fun l => (l.map Prod.snd).sum

/-- Score of the claim-C2 witness: one split, raw value 1. -/
def scoreC2 : BehavioralScore := { raw := [(0, 1)] }

/-- Ceiling of the claim-C2 witness: one split, ceiling value 1. -/
def ceilingC2 : BehavioralScore := { raw := [(0, 1)] }

/-- The ceiled score produced in the claim-C2 witness. -/
noncomputable def resC2 : CeiledScore :=
  { center := aggC2 [(0, 1 / Real.sqrt 1)],
    raw_per_split := [(0, 1 / Real.sqrt 1)],
    raw := scoreC2, ceiling := ceilingC2 }

/-! ## Theorems -/

/-- The sequential filtering loop of `subset` computes the intersected
per-level membership filter: folding level-wise filters equals one filter by
the conjunction of the per-level masks. -/
theorem foldl_filter_eq_filter_all {α β : Type} (P : β → Prop) [DecidablePred P]
    (mask : β → α → Bool) (ls : List β) (es : List α) :
    ls.foldl (fun acc l => if P l then acc.filter (mask l) else acc) es
      = es.filter (fun e => ls.all (fun l => !(decide (P l)) || mask l e)) := by
  induction ls generalizing es with
  | nil => simp
  | cons l ls ih =>
    simp only [List.foldl_cons, List.all_cons]
    by_cases h : P l
    · rw [if_pos h, ih, List.filter_filter]
      apply List.filter_congr
      intro a _
      simp [h, Bool.and_comm]
    · rw [if_neg h, ih]
      apply List.filter_congr
      intro a _
      simp [h]

/-- `subsetFilter` equals a single filter by `keepEntry`. -/
theorem subsetFilter_eq_filter (source target : Assembly) (dim : String) :
    subsetFilter source target dim = source.entries.filter (keepEntry source target dim) := by
  unfold subsetFilter keepEntry
  exact foldl_filter_eq_filter_all _ _ _ _

/-- Claim C1 (counterexample): the source and target share the subsetted axis
and the common `image_id` value 0 on its shared level, yet `subset` does not
return an aligned tensor: it signals `AlignmentError`, because the filtered
source has 1 entry while the target axis has length 2. -/
theorem subset_precondition_insufficient :
    ("image_id" ∈ effectiveLevels tgtC1 "presentation" ∧
     "image_id" ∈ srcC1.coords ∧
     0 ∈ levelValues srcC1 "image_id" ∧
     0 ∈ levelValues tgtC1 "image_id") ∧
    subset srcC1 tgtC1 "presentation" = .error .alignmentError :=
  ⟨⟨by decide, by decide, by decide, by decide⟩, rfl⟩

/-- Claim C1 (amended): whenever `subset` returns successfully, the resulting
source tensor's length along the subsetted axis equals the target's axis
length, and the retained entries are exactly those source entries whose
label, for every level of that axis present in both tensors, appears among
the target's label values for that level (per-level membership masks
intersected across levels). -/
theorem subset_ok_length_and_membership (source target : Assembly) (dim : String)
    (result : Assembly) (h : subset source target dim = .ok result) :
    result.entries.length = target.entries.length ∧
    result.entries = source.entries.filter (keepEntry source target dim) := by
  unfold subset at h
  simp only at h
  split at h
  · split at h
    · rename_i hlen
      cases h
      exact ⟨by simpa using hlen, subsetFilter_eq_filter source target dim⟩
    · cases h
  · cases h

/-- Witness for the amended claim C1 at a concrete input on which `subset`
succeeds. -/
theorem subset_ok_length_and_membership_witness :
    asmOk.entries.length = asmOk.entries.length ∧
    asmOk.entries = asmOk.entries.filter (keepEntry asmOk asmOk "presentation") :=
  subset_ok_length_and_membership asmOk asmOk "presentation" asmOk rfl

/-- Claim C8: whenever at least one target level is present on the source
(so the selection loop runs) but the filtered source's length along the
subsetted axis differs from the target's axis length, `subset` signals
`AlignmentError`: no tensor is produced for the current comparison. -/
theorem subset_length_mismatch_alignment_error (source target : Assembly) (dim : String)
    (hshared : (effectiveLevels target dim).any (fun level => decide (level ∈ source.coords)) = true)
    (hlen : (subsetFilter source target dim).length ≠ target.entries.length) :
    subset source target dim = .error .alignmentError := by
  unfold subset
  simp only [hshared, if_true, if_neg hlen]

/-- Witness for claim C8: a source with entries labelled 0 and 5 against a
target with entries labelled 0 and 1 leaves one entry after filtering, which
differs from the target length 2, and `subset` signals `AlignmentError`. -/
theorem subset_length_mismatch_alignment_error_witness :
    ((effectiveLevels tgtC1 "presentation").any
        (fun level => decide (level ∈ srcC8.coords)) = true) ∧
    ((subsetFilter srcC8 tgtC1 "presentation").length ≠ tgtC1.entries.length) ∧
    subset srcC8 tgtC1 "presentation" = .error .alignmentError :=
  ⟨by decide, by decide,
    subset_length_mismatch_alignment_error srcC8 tgtC1 "presentation" (by decide) (by decide)⟩

/-- Claim C10: `subset` only removes entries along the subsetted axis — the
result's entries form a sublist of the source's entries (so every retained
entry is an entry of the source, relative order is kept, and no entry is
taken more often than it occurs in the source); no entry is modified or
added. -/
theorem subset_entries_sublist (source target : Assembly) (dim : String)
    (result : Assembly) (h : subset source target dim = .ok result) :
    result.entries.Sublist source.entries ∧
    ∀ e ∈ result.entries, e ∈ source.entries := by
  obtain ⟨-, hfilter⟩ := subset_ok_length_and_membership source target dim result h
  rw [hfilter]
  exact ⟨List.filter_sublist _, fun e he => List.mem_of_mem_filter he⟩

/-- Witness for claim C10 at a concrete input on which `subset` succeeds. -/
theorem subset_entries_sublist_witness :
    asmOk.entries.Sublist asmOk.entries ∧
    ∀ e ∈ asmOk.entries, e ∈ asmOk.entries :=
  subset_entries_sublist asmOk asmOk "presentation" asmOk rfl

/-- Claim C5: constructing a score from a per-split tensor stores the
tensor, computes `center` as the mean across the split axis (the default
aggregate) and `error` as the population standard deviation across the
split axis; in particular, for per-split values [0.2, 0.4, 0.6] the center
is 0.4 and the error lies strictly between 0.1632 and 0.1634 (≈ 0.1633). -/
theorem mean_score_aggregation :
    (∀ vs : List ℝ, (MeanScore.ofValues vs).values = vs ∧
        (MeanScore.ofValues vs).center = listMean vs ∧
        (MeanScore.ofValues vs).error = listStd vs) ∧
    (MeanScore.ofValues [0.2, 0.4, 0.6]).center = 0.4 ∧
    0.1632 < (MeanScore.ofValues [0.2, 0.4, 0.6]).error ∧
    (MeanScore.ofValues [0.2, 0.4, 0.6]).error < 0.1634 := by
  have hm : listMean ([(0.2 : ℝ), 0.4, 0.6].map
      (fun x => (x - listMean [(0.2 : ℝ), 0.4, 0.6]) ^ 2)) = 2 / 75 := by
    norm_num [listMean]
  refine ⟨fun vs => ⟨rfl, rfl, rfl⟩, ?_, ?_, ?_⟩
  · show listMean [(0.2 : ℝ), 0.4, 0.6] = 0.4
    norm_num [listMean]
  · show (0.1632 : ℝ) < listStd [(0.2 : ℝ), 0.4, 0.6]
    rw [listStd, hm]
    exact (Real.lt_sqrt (by norm_num)).mpr (by norm_num)
  · show listStd [(0.2 : ℝ), 0.4, 0.6] < 0.1634
    rw [listStd, hm]
    exact (Real.sqrt_lt' (by norm_num)).mpr (by norm_num)

/-- Claim C6: `Similarity.__call__` performs exactly align → sort → apply →
score, in this order: it first aligns the source to the target on the
presentation axis (propagating an alignment failure unchanged, so no later
step runs), and on success its result is exactly the `MeanScore` wrapping of
the concrete similarity applied to the two tensors sorted by their
`image_id` identity coordinate, where sorting permutes the entries into
`imageIdLE`-sorted order. -/
theorem similarity_call_steps (applyFn : Assembly → Assembly → List ℝ)
    (s t : Assembly) :
    (∀ e, subset s t "presentation" = .error e →
      Similarity.call applyFn s t = .error e) ∧
    (∀ res, Similarity.call applyFn s t = .ok res →
      ∃ aligned, subset s t "presentation" = .ok aligned ∧
        res = MeanScore.ofValues
          (applyFn (Similarity.sort aligned) (Similarity.sort t)) ∧
        (Similarity.sort aligned).entries.Perm aligned.entries ∧
        (Similarity.sort t).entries.Perm t.entries ∧
        List.Sorted imageIdLE (Similarity.sort aligned).entries ∧
        List.Sorted imageIdLE (Similarity.sort t).entries) := by
  constructor
  · intro e he
    simp only [Similarity.call, he]
  · intro res hres
    unfold Similarity.call at hres
    cases hsub : subset s t "presentation" with
    | error e => rw [hsub] at hres; cases hres
    | ok aligned =>
      rw [hsub] at hres
      simp only [Except.ok.injEq] at hres
      subst hres
      exact ⟨aligned, rfl, rfl, List.perm_insertionSort _ _,
        List.perm_insertionSort _ _,
        List.sorted_insertionSort _ _, List.sorted_insertionSort _ _⟩

/-- Witness for claim C6 at a concrete pair of tensors on which alignment
succeeds. -/
theorem similarity_call_steps_witness :
    ∃ aligned, subset asmOk asmOk "presentation" = .ok aligned ∧
      MeanScore.ofValues ([] : List ℝ) = MeanScore.ofValues
        ((fun _ _ => ([] : List ℝ)) (Similarity.sort aligned)
          (Similarity.sort asmOk)) ∧
      (Similarity.sort aligned).entries.Perm aligned.entries ∧
      (Similarity.sort asmOk).entries.Perm asmOk.entries ∧
      List.Sorted imageIdLE (Similarity.sort aligned).entries ∧
      List.Sorted imageIdLE (Similarity.sort asmOk).entries :=
  (similarity_call_steps (fun _ _ => ([] : List ℝ)) asmOk asmOk).2
    (MeanScore.ofValues []) rfl

/-- All choice combinations (`sections`) of a list of duplicate-free lists
are pairwise distinct. -/
theorem sections_nodup {α : Type} (L : List (List α)) (h : ∀ l ∈ L, l.Nodup) :
    L.sections.Nodup := by
  induction L with
  | nil => simp [List.sections]
  | cons l L ih =>
    simp only [List.sections]
    rw [List.nodup_flatMap]
    constructor
    · intro s _
      exact (h l (by simp)).map (fun a b hab => by injection hab)
    · refine (ih (fun l' hl' => h l' (by simp [hl']))).imp ?_
      intro s s' hne x hx hx'
      obtain ⟨a, _, rfl⟩ := List.mem_map.1 hx
      obtain ⟨b, _, hEq⟩ := List.mem_map.1 hx'
      injection hEq with h1 h2
      exact hne h2.symm

/-- The distinct choices along one adjacent dimension are duplicate-free. -/
theorem dimChoices_nodup (a : MultiAssembly) (d : String) :
    (dimChoices a d).Nodup :=
  (List.nodup_dedup _).map (fun x y hxy => by injection hxy)

/-- The enumeration of adjacent combinations is duplicate-free. -/
theorem adjacent_selections_nodup (a : MultiAssembly) (similarity_dims : List String) :
    (adjacent_selections a similarity_dims).Nodup := by
  apply sections_nodup
  intro l hl
  obtain ⟨d, _, rfl⟩ := List.mem_map.1 hl
  exact dimChoices_nodup a d

/-- The keys of the per-pair engine results are exactly the Cartesian
product of the two adjacent enumerations. -/
theorem outerCalls_keys (crossApplyFn : List (String × Int) → List (String × Int) → List ℚ)
    (similarity_dims : List String) (source target : MultiAssembly) :
    (outerCalls crossApplyFn similarity_dims source target).map
        (fun r => (r.1, r.2.1))
      = (adjacent_selections source similarity_dims) ×ˢ
          (adjacent_selections target similarity_dims) := by
  unfold outerCalls
  rw [List.map_map]
  exact List.map_id'' (fun p => rfl) _

/-- Claim C3: `apply` enumerates the distinct adjacent coordinate-value
combinations independently for the source and for the target, invokes the
cross-validation engine exactly once for each pair in the Cartesian product
of the two enumerations (the result list carries one cell per pair, keyed by
it, holding that pair's engine result), the cells' keys are pairwise
distinct and range over exactly the Cartesian product — no position unset
and none overwritten — and the merged tensor returned on success consists of
exactly these cells. -/
theorem outer_apply_characterization
    (crossApplyFn : List (String × Int) → List (String × Int) → List ℚ)
    (similarity_dims : List String) (source target : MultiAssembly) :
    ((outerCalls crossApplyFn similarity_dims source target).map
        (fun r => (r.1, r.2.1))).Nodup ∧
    (∀ adj1 adj2,
      (adj1, adj2) ∈ (outerCalls crossApplyFn similarity_dims source target).map
          (fun r => (r.1, r.2.1)) ↔
        adj1 ∈ adjacent_selections source similarity_dims ∧
        adj2 ∈ adjacent_selections target similarity_dims) ∧
    (∀ r ∈ outerCalls crossApplyFn similarity_dims source target,
      r.2.2 = crossApplyFn r.1 r.2.1) ∧
    (∀ merged,
      OuterCrossValidationSimilarity.apply crossApplyFn similarity_dims source target
          = .ok merged →
      merged = outerCalls crossApplyFn similarity_dims source target) := by
  refine ⟨?_, ?_, ?_, ?_⟩
  · rw [outerCalls_keys]
    exact (adjacent_selections_nodup source similarity_dims).product
      (adjacent_selections_nodup target similarity_dims)
  · intro adj1 adj2
    rw [outerCalls_keys]
    exact List.mem_product
  · intro r hr
    obtain ⟨p, _, rfl⟩ := List.mem_map.1 hr
    rfl
  · intro merged h
    unfold OuterCrossValidationSimilarity.apply at h
    simp only at h
    split at h
    · exact (Except.ok.injEq _ _ ▸ h).symm
    · cases h

/-- Witness for claim C3 at concrete tensors: the merged result is the
two-cell tensor `mergedC3`, and each cell holds the engine's result for its
key pair. -/
theorem outer_apply_characterization_witness :
    (([("time", 0)], ([] : List (String × Int)), [(0 : ℚ)]).2.2
        = crossApplyC3 ([("time", 0)], ([] : List (String × Int)), [(0 : ℚ)]).1
            ([("time", 0)], ([] : List (String × Int)), [(0 : ℚ)]).2.1) ∧
    mergedC3 = outerCalls crossApplyC3 ["presentation", "neuroid"] srcC3 tgtC3 :=
  ⟨(outer_apply_characterization crossApplyC3 ["presentation", "neuroid"] srcC3 tgtC3).2.2.1
      ([("time", 0)], [], [0]) (by decide),
    (outer_apply_characterization crossApplyC3 ["presentation", "neuroid"] srcC3 tgtC3).2.2.2
      mergedC3 rfl⟩

/-- Claim C7: `cross_apply` verifies, before generating any splits, that the
source and target slices agree entry-for-entry on the comparison axis's
identity coordinate and on the stratification coordinate; a mismatch on
either is fatal — `MisalignedFoldInputError` — whatever the split engine
would have computed (the error does not depend on `splitFn`, so no split is
generated and the mismatch is never silently corrected). -/
theorem cross_apply_misaligned_fatal (cross_validation_dim stratification_coord : String)
    (source target : Assembly)
    (h : levelValues source cross_validation_dim
          ≠ levelValues target cross_validation_dim ∨
         levelValues source stratification_coord
          ≠ levelValues target stratification_coord) :
    ∀ splitFn, OuterCrossValidationSimilarity.cross_apply splitFn cross_validation_dim stratification_coord source target
      = .error .misalignedFoldInput := by
  intro splitFn
  unfold OuterCrossValidationSimilarity.cross_apply
  rcases h with h | h
  · rw [if_neg h]
  · by_cases h1 : levelValues source cross_validation_dim
        = levelValues target cross_validation_dim
    · rw [if_pos h1, if_neg h]
    · rw [if_neg h1]

/-- Witness for claim C7: slices disagreeing on the comparison axis's
identity coordinate make `cross_apply` fail with
`MisalignedFoldInputError`. -/
theorem cross_apply_misaligned_fatal_witness :
    (levelValues srcC1 "presentation" ≠ levelValues tgtC1 "presentation" ∨
     levelValues srcC1 "object_name" ≠ levelValues tgtC1 "object_name") ∧
    OuterCrossValidationSimilarity.cross_apply (fun _ _ => []) "presentation" "object_name" srcC1 tgtC1
      = .error .misalignedFoldInput :=
  ⟨Or.inl (by decide),
    cross_apply_misaligned_fatal "presentation" "object_name" srcC1 tgtC1
      (Or.inl (by decide)) (fun _ _ => [])⟩

/-- A key occurring in an association list has a `lookup` value. -/
theorem lookup_isSome_of_mem_keys {β : Type} {l : List (Int × β)} {a : Int}
    (h : a ∈ l.map Prod.fst) : ∃ b, l.lookup a = some b := by
  induction l with
  | nil => simp at h
  | cons p l ih =>
    obtain ⟨k, v⟩ := p
    by_cases heq : a = k
    · exact ⟨v, by simp [List.lookup, heq]⟩
    · have h' : a ∈ l.map Prod.fst := by simpa [heq] using h
      obtain ⟨b, hb⟩ := ih h'
      have hbeq : (a == k) = false := beq_eq_false_iff_ne.mpr heq
      exact ⟨b, by simp [List.lookup, hbeq, hb]⟩

/-- Claim C2: whenever `ceil_score` succeeds — which requires score and
ceiling to carry the same set of split identifiers — the result holds, for
each split, that split's raw score divided by the square root of that same
split's ceiling value, its center is the metric's aggregation re-applied to
the ceiled per-split values, and the pre-ceiling raw score and the ceiling
tensor are attached unchanged as auxiliary attributes. -/
theorem ceil_score_spec (aggregate : List (Int × ℝ) → ℝ)
    (score ceiling : BehavioralScore) (res : CeiledScore)
    (h : ceil_score aggregate score ceiling = .ok res) :
    (score.raw.map Prod.fst).toFinset = (ceiling.raw.map Prod.fst).toFinset ∧
    (∀ split ∈ ceiling.raw.map Prod.fst, ∃ sv cv,
        score.raw.lookup split = some sv ∧
        ceiling.raw.lookup split = some cv ∧
        (split, sv / Real.sqrt cv) ∈ res.raw_per_split) ∧
    res.center = aggregate res.raw_per_split ∧
    res.raw = score ∧ res.ceiling = ceiling := by
  unfold ceil_score at h
  split at h
  · rename_i hset
    simp only [Except.ok.injEq] at h
    subst h
    refine ⟨hset, ?_, rfl, rfl, rfl⟩
    intro split hsplit
    have hscore : split ∈ score.raw.map Prod.fst := by
      have hmem := List.mem_toFinset.2 hsplit
      rw [← hset] at hmem
      exact List.mem_toFinset.1 hmem
    obtain ⟨sv, hsv⟩ := lookup_isSome_of_mem_keys hscore
    obtain ⟨cv, hcv⟩ := lookup_isSome_of_mem_keys hsplit
    refine ⟨sv, cv, hsv, hcv, ?_⟩
    exact List.mem_map.2 ⟨split, hsplit, by rw [hsv, hcv]; rfl⟩
  · exact Except.noConfusion h

/-- Witness for claim C2 at a one-split score and ceiling. -/
theorem ceil_score_spec_witness :
    (scoreC2.raw.map Prod.fst).toFinset = (ceilingC2.raw.map Prod.fst).toFinset ∧
    (∀ split ∈ ceilingC2.raw.map Prod.fst, ∃ sv cv,
        scoreC2.raw.lookup split = some sv ∧
        ceilingC2.raw.lookup split = some cv ∧
        (split, sv / Real.sqrt cv) ∈ resC2.raw_per_split) ∧
    resC2.center = aggC2 resC2.raw_per_split ∧
    resC2.raw = scoreC2 ∧ resC2.ceiling = ceilingC2 :=
  ceil_score_spec aggC2 scoreC2 ceilingC2 resC2 rfl

/-- A successful per-neuroid comparison means both slices squeezed to one
row and the result is their correlation. -/
theorem entityScore_ok (correlation : List ℚ → List ℚ → ℚ)
    (prediction target : NAssembly) (i : Int) (r : ℚ)
    (h : entityScore correlation prediction target i = .ok r) :
    (selNeuroid target i).length = 1 ∧ (selNeuroid prediction i).length = 1 ∧
    r = correlation ((selNeuroid target i).headD [])
      ((selNeuroid prediction i).headD []) := by
  unfold entityScore at h
  split at h
  · rename_i hc
    simp only [Except.ok.injEq] at h
    exact ⟨hc.1, hc.2, h.symm⟩
  · exact Except.noConfusion h

/-- A successful collection loop yields exactly the per-entity correlations,
in entity order. -/
theorem collectScores_ok (correlation : List ℚ → List ℚ → ℚ)
    (prediction target : NAssembly) :
    ∀ (ids : List Int) (rs : List ℚ),
      collectScores correlation prediction target ids = .ok rs →
      (∀ i ∈ ids, (selNeuroid target i).length = 1 ∧
        (selNeuroid prediction i).length = 1) ∧
      rs = ids.map (fun i => correlation ((selNeuroid target i).headD [])
        ((selNeuroid prediction i).headD [])) := by
  intro ids
  induction ids with
  | nil =>
    intro rs h
    simp only [collectScores, Except.ok.injEq] at h
    subst h
    simp
  | cons i rest ih =>
    intro rs h
    unfold collectScores at h
    split at h
    · rename_i r rs' hE hR
      simp only [Except.ok.injEq] at h
      subst h
      obtain ⟨hE1, hE2, hEr⟩ := entityScore_ok correlation prediction target i r hE
      obtain ⟨hlen, hmap⟩ := ih rs' hR
      refine ⟨?_, ?_⟩
      · intro j hj
        rcases List.mem_cons.1 hj with rfl | hj'
        · exact ⟨hE1, hE2⟩
        · exact hlen j hj'
      · rw [List.map_cons, ← hEr, ← hmap]
    · exact Except.noConfusion h
    · exact Except.noConfusion h

/-- Claim C4: `compare_prediction` requires prediction and target to agree
pairwise on the comparison axis's identity coordinate (`image_id`) and on
the entity-identity coordinate (`neuroid_id`) — a mismatch on either is
fatal — and on success it returns the median, across entities, of the
pointwise correlation computed per entity between the predicted and target
values. -/
theorem compare_prediction_spec (correlation : List ℚ → List ℚ → ℚ)
    (prediction target : NAssembly) :
    (((prediction.image_id.zip target.image_id).all (fun p => p.1 == p.2) = false ∨
      (prediction.neuroid_id.zip target.neuroid_id).all (fun p => p.1 == p.2) = false) →
      ParametricCVSimilarity.compare_prediction correlation prediction target
        = .error .assertionFailed) ∧
    (∀ r, ParametricCVSimilarity.compare_prediction correlation prediction target
        = .ok r →
      (prediction.image_id.zip target.image_id).all (fun p => p.1 == p.2) = true ∧
      (prediction.neuroid_id.zip target.neuroid_id).all (fun p => p.1 == p.2) = true ∧
      (∀ i ∈ target.neuroid_id,
        (selNeuroid target i).length = 1 ∧ (selNeuroid prediction i).length = 1) ∧
      r = np_median (target.neuroid_id.map (fun i =>
        correlation ((selNeuroid target i).headD [])
          ((selNeuroid prediction i).headD [])))) := by
  constructor
  · intro h
    unfold ParametricCVSimilarity.compare_prediction
    rcases h with h | h
    · rw [if_neg (by simp [h])]
    · by_cases h1 : (prediction.image_id.zip target.image_id).all
          (fun p => p.1 == p.2) = true
      · rw [if_pos h1, if_neg (by simp [h])]
      · rw [if_neg h1]
  · intro r h
    unfold ParametricCVSimilarity.compare_prediction at h
    by_cases himg : (prediction.image_id.zip target.image_id).all
        (fun p => p.1 == p.2) = true
    case neg => rw [if_neg himg] at h; exact Except.noConfusion h
    rw [if_pos himg] at h
    by_cases hneu : (prediction.neuroid_id.zip target.neuroid_id).all
        (fun p => p.1 == p.2) = true
    case neg => rw [if_neg hneu] at h; exact Except.noConfusion h
    rw [if_pos hneu] at h
    cases hcol : collectScores correlation prediction target target.neuroid_id with
    | error e => rw [hcol] at h; exact Except.noConfusion h
    | ok rs =>
      rw [hcol] at h
      simp only [Except.ok.injEq] at h
      subst h
      obtain ⟨hlen, hrs⟩ :=
        collectScores_ok correlation prediction target target.neuroid_id rs hcol
      exact ⟨himg, hneu, hlen, by rw [hrs]⟩

/-- Witness for claim C4: a fatal `image_id` mismatch, and a successful
comparison returning the median of the per-entity correlations. -/
theorem compare_prediction_spec_witness :
    (ParametricCVSimilarity.compare_prediction corrC4 predMismatchC4 tgtMismatchC4
      = .error .assertionFailed) ∧
    ((predOkC4.image_id.zip predOkC4.image_id).all (fun p => p.1 == p.2) = true ∧
     (predOkC4.neuroid_id.zip predOkC4.neuroid_id).all (fun p => p.1 == p.2) = true ∧
     (∀ i ∈ predOkC4.neuroid_id,
        (selNeuroid predOkC4 i).length = 1 ∧ (selNeuroid predOkC4 i).length = 1) ∧
     (1 : ℚ) = np_median (predOkC4.neuroid_id.map (fun i =>
        corrC4 ((selNeuroid predOkC4 i).headD [])
          ((selNeuroid predOkC4 i).headD [])))) :=
  ⟨(compare_prediction_spec corrC4 predMismatchC4 tgtMismatchC4).1 (Or.inl (by decide)),
   (compare_prediction_spec corrC4 predOkC4 predOkC4).2 1 rfl⟩

/-- Claim C9: `predict` attaches to its result the `neuroid_id` values
recorded by the most recent `fit` on the same instance, regardless of the
test source's own `neuroid_id` values, and each `fit` overwrites this
recorded state: after two interleaved fits, a prediction carries the second
training target's `neuroid_id` values. -/
theorem predict_attaches_latest_fit_ids
    (predict_values : NAssembly → List (List ℚ)) (st st1 st2 : PState)
    (s1 t1 s2 t2 test : NAssembly) (p : NAssembly)
    (h1 : ParametricCVSimilarity.fit st s1 t1 = .ok st1)
    (h2 : ParametricCVSimilarity.fit st1 s2 t2 = .ok st2)
    (h3 : ParametricCVSimilarity.predict predict_values st2 test = .ok p) :
    st1.target_neuroid_ids = some t1.neuroid_id ∧
    st2.target_neuroid_ids = some t2.neuroid_id ∧
    p.neuroid_id = t2.neuroid_id ∧
    p.image_id = test.image_id := by
  unfold ParametricCVSimilarity.fit at h1 h2
  split at h1
  case isFalse => exact Except.noConfusion h1
  split at h2
  case isFalse => exact Except.noConfusion h2
  simp only [Except.ok.injEq] at h1 h2
  subst h1
  subst h2
  unfold ParametricCVSimilarity.predict at h3
  simp only [Except.ok.injEq] at h3
  subst h3
  exact ⟨rfl, rfl, rfl, rfl⟩

/-- Witness for claim C9: two interleaved fits (targets with
`neuroid_id = [1]` then `[2]`) followed by a predict on a test source whose
own `neuroid_id` is `[5]`; the prediction carries `[2]`. -/
theorem predict_attaches_latest_fit_ids_witness :
    stAC9.target_neuroid_ids = some fitTgt1C9.neuroid_id ∧
    stBC9.target_neuroid_ids = some fitTgt2C9.neuroid_id ∧
    predC9.neuroid_id = fitTgt2C9.neuroid_id ∧
    predC9.image_id = testC9.image_id :=
  predict_attaches_latest_fit_ids pvC9 stNoneC9 stAC9 stBC9
    fitSrc1C9 fitTgt1C9 fitSrc2C9 fitTgt2C9 testC9 predC9 rfl rfl rfl
